import Mathlib

/-!
# TrackTramReliability — verification of the ingestion pipeline and index builder

Shallow embedding of the core of the TrackTramReliability repository:

* `models.py` — the `Station` and `Departure` records;
* `db.py` — the `departures_raw` table with its `uq_departure_identity`
  natural-key uniqueness constraint, and the transactional behaviour of an
  ORM session (`flush` / `rollback` / `commit`);
* `ingest.py` — `filter_stations_by_products`, `insert_departures` and the
  persistence phase of `ingest_departures_for_products`;
* `departures.py` — `_normalize_epoch_seconds` and the per-item
  normalization body of `fetch_departures`;
* `poller.py` — the timing behaviour of one iteration of `run_poller`;
* `gtfs_index.py` — `base3` and the pure joining/filtering core of
  `build_label_index`.

Machine-level detail that the claims do not touch (HTTP transport, CSV/zip
decoding, float station coordinates) is outside the embedding; every function
below is translated from the corresponding Python source.
-/

namespace TrackTram

/-- models.py `Departure` (also the shape of a `departures_raw` row, db.py
`DepartureRawOrm` — `insert_departures` copies the fields one to one).
Timestamps are epoch seconds. -/
structure Departure where
  station_id : String
  planned_departure_time : Option Int
  realtime_departure_time : Option Int
  delay_in_minutes : Option Int
  transport_type : Option String
  label : Option String
  destination : Option String
  cancelled : Bool
  platform : Option String
  realtime : Bool
  fetched_at : Int
deriving DecidableEq, Repr

/-- models.py `Station`. The fields not consulted by any modelled operation
(place, coordinates, diva id, tariff zones) are omitted; `products` is the
declared product list, `none` when the provider supplied none. -/
structure Station where
  id : String
  name : String
  products : Option (List String)
deriving DecidableEq, Repr

/-! ## The store and the ORM session (db.py, sqlalchemy semantics)

db.py declares `uq_departure_identity`: a UNIQUE constraint over
(station_id, transport_type, label, destination, planned_departure_time).
Per SQL semantics a row with NULL in any constrained column never conflicts.

The session produced by `create_session_maker` (autoflush off, autocommit
off) has the standard transactional behaviour: `flush` executes the pending
INSERT inside the open transaction, `commit` makes the transaction durable,
and `rollback` aborts the whole open transaction — the code never opens a
SAVEPOINT (`begin_nested`), so a rollback undoes every flushed-but-uncommitted
INSERT of the session, not only the failed one. -/

/-- Violation of `uq_departure_identity`: the candidate row conflicts with an
existing row iff all five constrained columns are pairwise equal and non-NULL
(`station_id` is always present). -/
def keyConflict (a b : Departure) : Bool :=
  a.station_id == b.station_id
    && a.transport_type == b.transport_type && a.transport_type.isSome
    && a.label == b.label && a.label.isSome
    && a.destination == b.destination && a.destination.isSome
    && a.planned_departure_time == b.planned_departure_time
    && a.planned_departure_time.isSome

/-- An ORM session bound to the store: `committed` rows are durable,
`pending` rows were flushed in the open transaction but not yet committed. -/
structure DbSession where
  committed : List Departure
  pending : List Departure
deriving DecidableEq, Repr

/-- A fresh session on an empty store. -/
def emptySession : DbSession := ⟨[], []⟩

/-- `session.add(rec)` followed by `session.flush()`: the INSERT runs inside
the open transaction and fails with IntegrityError iff `rec` violates
`uq_departure_identity` against a committed row or an earlier row flushed in
the same transaction. -/
def flushInsert (s : DbSession) (rec : Departure) : Except Unit DbSession :=
  if (s.committed ++ s.pending).any (fun r => keyConflict r rec) then
    Except.error ()
  else
    Except.ok { s with pending := s.pending ++ [rec] }

/-- `session.rollback()`: aborts the open transaction; every
flushed-but-uncommitted INSERT is undone. -/
def rollback (s : DbSession) : DbSession := { s with pending := [] }

/-- `session.commit()`: makes the open transaction durable. -/
def commit (s : DbSession) : DbSession := ⟨s.committed ++ s.pending, []⟩

/-- ingest.py `insert_departures(session, departures)` (lines 65-90): for each
departure, add the row and flush; count an insert on success; on
IntegrityError call `session.rollback()` and count a skip. Returns the
resulting session state with `(inserted, skipped)`. -/
def insert_departures (s : DbSession) (departures : List Departure) :
    DbSession × Nat × Nat :=
  departures.foldl
    (fun acc d =>
      match flushInsert acc.1 d with
      | Except.ok s' => (s', acc.2.1 + 1, acc.2.2)
      | Except.error _ => (rollback acc.1, acc.2.1, acc.2.2 + 1))
    (s, 0, 0)

/-- The persistence phase of ingest.py `ingest_departures_for_products`
(lines 154-161): one session for the whole batch starting from an empty
store, `insert_departures` per station's fetched list, and a single
`session.commit()` at the end. Returns the committed rows and the aggregate
`(rows_inserted, rows_skipped)`. -/
def ingest_persist (batches : List (List Departure)) :
    List Departure × Nat × Nat :=
  let r := batches.foldl
    (fun acc deps =>
      let out := insert_departures acc.1 deps
      (out.1, acc.2.1 + out.2.1, acc.2.2 + out.2.2))
    (emptySession, 0, 0)
  ((commit r.1).committed, r.2.1, r.2.2)

/-- The departure of spec §8's dedup example: key
(s1, TRAM, T17, Central, 1700000000). -/
def exDep1 : Departure :=
  { station_id := "s1"
    planned_departure_time := some 1700000000
    realtime_departure_time := some 1700000300
    delay_in_minutes := some 5
    transport_type := some "TRAM"
    label := some "T17"
    destination := some "Central"
    cancelled := false
    platform := none
    realtime := true
    fetched_at := 1700000000 }

/-- The same natural key as `exDep1`, observed one minute later. -/
def exDep2 : Departure := { exDep1 with fetched_at := 1700000060 }

/-- A departure with a different natural key (different label/destination). -/
def exDep3 : Departure :=
  { exDep1 with label := some "19", destination := some "West" }

/-! ## Station product filtering (ingest.py) -/

/-- Python `str.upper()` on the ASCII alphabet, computed character by
character (`String.toUpper` itself is defined through a well-founded
recursion that the kernel cannot evaluate; this charwise form reduces). -/
def strUpper (s : String) : String := ⟨s.data.map Char.toUpper⟩

/-- Python `str.strip()` (whitespace removed from both ends), computed
character by character for the same reason as `strUpper`. -/
def strTrim (s : String) : String :=
  ⟨((s.data.dropWhile Char.isWhitespace).reverse.dropWhile
      Char.isWhitespace).reverse⟩

/-- ingest.py `filter_stations_by_products` (lines 27-38). `none` models a
Python `None` filter; Python truthiness makes the empty set behave like
`None` (`if not products or "ALL" in products: return list(stations)` —
note the `"ALL"` membership test runs on the set as given, before the
upper-casing of the requested products). A station with `products` equal to
`None` or the empty list is skipped by `if not s.products: continue`; the
remaining stations are kept iff their upper-cased product set intersects
the upper-cased requested set. -/
def filter_stations_by_products (stations : List Station)
    (products : Option (List String)) : List Station :=
  match products with
  | none => stations
  | some ps =>
    if ps.isEmpty || ps.contains "ALL" then stations
    else
      let psU := ps.map strUpper
      stations.filter fun s =>
        match s.products with
        | none => false
        | some sprods =>
          !sprods.isEmpty && (sprods.map strUpper).any (fun p => psU.contains p)

/-! ## Departure normalization (departures.py) -/

/-- departures.py `_normalize_epoch_seconds` (lines 12-23) on numeric input.
(The string branch coerces through `int(float(value))`, which is the identity
on integer-valued input; a parse failure returns `None` and is outside the
numeric domain modelled here.) Python's `ivalue //= 1000` is floor division
and only runs on values above 10^10, where `Int` division agrees with it. -/
def _normalize_epoch_seconds (value : Option Int) : Option Int :=
  match value with
  | none => none
  | some v => some (if v > 10000000000 then v / 1000 else v)

/-- One raw record of the provider departures response, with both accepted
spellings of each tolerant field. `none` models an absent key and a JSON
`null` alike (both make `item.get(...)` return `None`). -/
structure ApiItem where
  planned_departure_time : Option Int
  plannedDepartureTime : Option Int
  realtime_departure_time : Option Int
  realtimeDepartureTime : Option Int
  delay_in_minutes : Option Int
  delayInMinutes : Option Int
  transport_type : Option String
  transportType : Option String
  label : Option String
  destination : Option String
  cancelled : Option Bool
  platform : Option String
  realtime : Option Bool
deriving DecidableEq, Repr

/-- Python `a or b` on optional integers: the first operand unless it is
falsy (absent or 0), in which case the second operand is returned verbatim. -/
def pyOrInt (a b : Option Int) : Option Int :=
  match a with
  | some v => if v = 0 then b else some v
  | none => b

/-- Python `a or b` on optional strings: the first operand unless it is
falsy (absent or the empty string). -/
def pyOrStr (a b : Option String) : Option String :=
  match a with
  | some v => if v = "" then b else some v
  | none => b

/-- Python `int(round(n / d))` for an integer `n` and positive integer `d`:
nearest integer with ties to even (Python 3 `round`). The float evaluation
of `n / 60` in the source is exact at every tie point and its rounding
error cannot cross a tie boundary for any |n| below 2^52, so exact rational
rounding coincides with the source on the whole epoch-seconds domain. -/
def pyRoundDiv (n d : Int) : Int :=
  let q := Int.ediv n d
  let r := Int.emod n d
  if 2 * r < d then q
  else if d < 2 * r then q + 1
  else if q % 2 = 0 then q else q + 1

/-- The planned-timestamp chain of departures.py `fetch_departures`
(lines 45-47): snake_case falling back to camelCase, then normalized. -/
def plannedOf (item : ApiItem) : Option Int :=
  _normalize_epoch_seconds
    (pyOrInt item.planned_departure_time item.plannedDepartureTime)

/-- The realtime-timestamp chain of `fetch_departures` (lines 48-50). -/
def realtimeOf (item : ApiItem) : Option Int :=
  _normalize_epoch_seconds
    (pyOrInt item.realtime_departure_time item.realtimeDepartureTime)

/-- The delay logic of `fetch_departures` (lines 51-53): the or-chain over
both spellings, then the derivation `int(round((realtime - planned) / 60))`
exactly when the chain produced `None` and both timestamps are present. -/
def delayOf (item : ApiItem) : Option Int :=
  let delay := pyOrInt item.delay_in_minutes item.delayInMinutes
  match delay, plannedOf item, realtimeOf item with
  | none, some p, some r => some (pyRoundDiv (r - p) 60)
  | d, _, _ => d

/-- The per-item body of the loop of `fetch_departures` (lines 44-70):
builds one normalized `Departure` from a raw record. -/
def mkDeparture (station_id : String) (fetched_at : Int) (item : ApiItem) :
    Departure :=
  { station_id := station_id
    planned_departure_time := plannedOf item
    realtime_departure_time := realtimeOf item
    delay_in_minutes := delayOf item
    transport_type := pyOrStr item.transport_type item.transportType
    label := item.label
    destination := item.destination
    cancelled := item.cancelled.getD false
    platform := item.platform
    realtime := item.realtime.getD false
    fetched_at := fetched_at }

/-! ## Poller timing (poller.py) -/

/-- The observable outcome of one ingestion pass: how long the call to
`ingest_departures_for_products` took, and whether it succeeded. -/
structure IterOutcome where
  work : Int
  ok : Bool
deriving DecidableEq, Repr

/-- One iteration of the while-loop of poller.py `run_poller` (lines 37-57),
as (iteration duration, next backoff). `t0` is taken before the pass; on
failure the handler sleeps the current backoff and doubles it (capped at
60); `elapsed = time.time() - t0` is measured after the handler — so on a
failed iteration it includes the backoff sleep — and the loop then sleeps
`max(0, interval - elapsed)`. On success the backoff resets to 1. -/
def pollerIteration (interval backoff : Int) (o : IterOutcome) : Int × Int :=
  if o.ok then
    (o.work + max 0 (interval - o.work), 1)
  else
    let elapsed := o.work + backoff
    (elapsed + max 0 (interval - elapsed), min (backoff * 2) 60)

/-- The failure branch as the spec's sentence reads it (claim C3): the
backoff sleep is added on top of the cadence-compensating sleep, which is
computed from the pass's own elapsed time only. Kept for comparison with
`pollerIteration`; the success branch is identical. -/
def pollerIterationClaimed (interval backoff : Int) (o : IterOutcome) :
    Int × Int :=
  if o.ok then
    (o.work + max 0 (interval - o.work), 1)
  else
    (o.work + backoff + max 0 (interval - o.work), min (backoff * 2) 60)

/-- `run_poller` over a finite trace of pass outcomes: total elapsed time
and final backoff, starting from the source's initial `backoff = 1`. -/
def run_poller (interval : Int) (outcomes : List IterOutcome) : Int × Int :=
  outcomes.foldl
    (fun acc o =>
      let r := pollerIteration interval acc.2 o
      (acc.1 + r.1, r.2))
    (0, 1)

/-! ## Reference index builder (gtfs_index.py)

The pure core of `build_label_index` (lines 96-209), after the archive has
been parsed into row tables. Python dicts keyed by strings appear either as
insertion-ordered association lists (where the source iterates them) or as
update functions (where the source only looks keys up); Python sets of
strings appear as `Finset String` where only contents matter and as
membership lists where only membership is tested. -/

/-- One row of routes.txt; `none` is a missing column or empty CSV cell
read back as `None`. -/
structure RouteRow where
  route_id : Option String
  route_type : Option String
  route_short_name : Option String
deriving DecidableEq, Repr

/-- One row of trips.txt. -/
structure TripRow where
  route_id : Option String
  trip_id : Option String
deriving DecidableEq, Repr

/-- One row of stop_times.txt (only trip and stop are consulted). -/
structure StopTimeRow where
  trip_id : Option String
  stop_id : Option String
deriving DecidableEq, Repr

/-- One row of stops.txt (only id and parent station are consulted). -/
structure StopRow where
  stop_id : Option String
  parent_station : Option String
deriving DecidableEq, Repr

/-- The four parsed static-feed tables. -/
structure GtfsTables where
  routes : List RouteRow
  trips : List TripRow
  stop_times : List StopTimeRow
  stops : List StopRow
deriving DecidableEq, Repr

/-- gtfs_index.py `ROUTE_TYPE_TO_PRODUCT` (lines 18-24), as the lookup
`dict.get`: `none` for an unmapped route type. -/
def ROUTE_TYPE_TO_PRODUCT (t : String) : Option String :=
  if t = "0" then some "TRAM"
  else if t = "1" then some "UBAHN"
  else if t = "2" then some "SBAHN"
  else if t = "3" then some "BUS"
  else if t = "900" then some "TRAM"
  else none

/-- Python truthiness of an optional string: `None` and `""` are falsy. -/
def truthy (v : Option String) : Bool :=
  match v with
  | none => false
  | some s => !(s == "")

/-- gtfs_index.py `base3` (lines 164-166): the first three colon-separated
segments, or the whole identifier when fewer than three exist. -/
def base3 (x : String) : String :=
  let parts := (List.splitOn ':' x.data).map (fun l => (⟨l⟩ : String))
  if parts.length ≥ 3 then String.intercalate ":" (parts.take 3) else x

/-- The entry normalization of `build_label_index` (lines 108-109):
`{f(x) for x in xs} if xs else None` — an absent or empty filter set
becomes `None`, otherwise each element is normalized by `f`. -/
def normFilterSet (xs : Option (List String)) (f : String → String) :
    Option (List String) :=
  match xs with
  | none => none
  | some l => if l.isEmpty then none else some (l.map f)

/-- The per-route pass/skip test of the routes loop (lines 121-126): skip
when a product filter is present and the mapped product is not requested
(an unmapped type is never in the requested set), or when a label filter is
present and the normalized short name is not requested. -/
def passesFilters (products labels : Option (List String)) (r : RouteRow) :
    Bool :=
  !(products.isSome &&
      !(match ROUTE_TYPE_TO_PRODUCT (r.route_type.getD "") with
        | some t => (products.getD []).contains t
        | none => false))
  && !(labels.isSome &&
      !((labels.getD []).contains (strUpper (strTrim (r.route_short_name.getD "")))))

/-- The state accumulated by the routes loop: `route_ids` (a set, used only
through membership) and the `route_product` dict. -/
structure RouteFilterState where
  route_ids : List String
  route_product : String → Option String

/-- One iteration of the routes loop of `build_label_index` (lines 120-132):
after the two filter `continue`s and the `if not rid: continue` truthiness
check, the route id is added to `route_ids`, and `route_product[rid]` is set
when the mapped product exists (`if r_type:` — the lookup table only ever
yields non-empty strings, so `some` is truthy). -/
def routeFilterStep (products labels : Option (List String))
    (st : RouteFilterState) (r : RouteRow) : RouteFilterState :=
  if passesFilters products labels r && truthy r.route_id then
    let rid := r.route_id.getD ""
    { route_ids := st.route_ids ++ [rid]
      route_product :=
        match ROUTE_TYPE_TO_PRODUCT (r.route_type.getD "") with
        | some t => fun x => if x = rid then some t else st.route_product x
        | none => st.route_product }
  else st

/-- The whole routes loop. -/
def routeFilter (products labels : Option (List String))
    (routes : List RouteRow) : RouteFilterState :=
  routes.foldl (routeFilterStep products labels) ⟨[], fun _ => none⟩

/-- Python `dict.setdefault(k, set()).add(v)` over an insertion-ordered
dict of string sets. -/
def addToMultimap (m : List (String × Finset String)) (k v : String) :
    List (String × Finset String) :=
  match m with
  | [] => [(k, {v})]
  | (k', vs) :: rest =>
    if k' = k then (k', insert v vs) :: rest
    else (k', vs) :: addToMultimap rest k v

/-- Python `dict.get(k)` over the same representation. -/
def lookupMM (m : List (String × Finset String)) (k : String) :
    Option (Finset String) :=
  match m with
  | [] => none
  | (k', vs) :: rest => if k' = k then some vs else lookupMM rest k

/-- One iteration of the trips loop of `build_label_index` (lines 136-143):
skip the trip unless its route id survived the routes filter (a missing
route id is never a member of `route_ids`, which holds only truthy ids) and
its trip id is truthy; otherwise group the trip id under the route id. -/
def tripStep (route_ids : List String)
    (m : List (String × Finset String)) (t : TripRow) :
    List (String × Finset String) :=
  match t.route_id with
  | none => m
  | some rid =>
    if rid ∈ route_ids then
      if truthy t.trip_id then addToMultimap m rid (t.trip_id.getD "")
      else m
    else m

/-- The whole trips loop (lines 135-143). -/
def routeTrips (route_ids : List String) (trips : List TripRow) :
    List (String × Finset String) :=
  trips.foldl (tripStep route_ids) []

/-- The stop_times loop (lines 146-151): group truthy stop ids by truthy
trip id. -/
def tripStops (stop_times : List StopTimeRow) :
    List (String × Finset String) :=
  stop_times.foldl
    (fun m st =>
      if truthy st.trip_id && truthy st.stop_id then
        addToMultimap m (st.trip_id.getD "") (st.stop_id.getD "")
      else m)
    []

/-- The route_stops loop (lines 153-158): per surviving route, the union of
the stop sets of all of its trips. -/
def routeStops (rt ts : List (String × Finset String)) :
    List (String × Finset String) :=
  rt.map (fun p => (p.1, p.2.biUnion (fun tid => (lookupMM ts tid).getD ∅)))

/-- The `stop_lookup` dict comprehension (line 177): stop rows keyed by
truthy stop id, a later row overwriting an earlier one with the same id. -/
def stopLookup (stops : List StopRow) : String → Option StopRow :=
  stops.foldl
    (fun f s =>
      if truthy s.stop_id then
        fun x => if x = s.stop_id.getD "" then some s else f x
      else f)
    (fun _ => none)

/-- The `station_base3_map` loop (lines 169-172): cached station ids grouped
by their `base3` key. -/
def stationBase3Map (stations : List Station) :
    List (String × Finset String) :=
  stations.foldl (fun m s => addToMultimap m (base3 s.id) s.id) []

/-- The body of the inner stop loop (lines 189-195) for one visited stop
id: resolve to the declared (trimmed, non-empty) parent station when
present, else the stop itself, and canonicalize. Only called on stop ids
present in `stop_lookup`. -/
def useIdBase3 (stop_lookup : String → Option StopRow) (sid : String) :
    String :=
  match stop_lookup sid with
  | none => base3 sid
  | some sinfo =>
    let parent := strTrim (sinfo.parent_station.getD "")
    base3 (if parent = "" then sid else parent)

/-- Python `sorted(s)` on a set of strings (ascending code-point
lexicographic order, one occurrence per element). -/
def sortedList (s : Finset String) : List String := s.sort (· ≤ ·)

/-- The mapping update of lines 203-204 / 206-207:
`mapping[p][l] = sorted(set(mapping.setdefault(p, {}).get(l, [])) | ids)`.
The nested dicts are modelled by their total lookup with default `[]`. -/
def updMapping (m : String → String → List String) (p l : String)
    (ids : Finset String) : String → String → List String :=
  fun p' l' =>
    if p' = p ∧ l' = l then sortedList ((m p l).toFinset ∪ ids)
    else m p' l'

/-- One iteration of the main loop of `build_label_index` (lines 179-207)
for one `(rid, sids)` entry of `route_stops`: look up the product and the
first routes row carrying this route id, skip when either is missing or
the normalized label is empty; otherwise canonicalize the visited stops
(resolving parent stations), expand through the station cache's base3
groups, and union the result into `mapping[prod][label]` and
`mapping["ALL"][label]`. -/
def mainStep (routes : List RouteRow) (route_product : String → Option String)
    (stop_lookup : String → Option StopRow)
    (sb3 : List (String × Finset String))
    (m : String → String → List String) (e : String × Finset String) :
    String → String → List String :=
  match routes.find? (fun x => x.route_id == some e.1) with
  | none => m
  | some r =>
    match route_product e.1 with
    | none => m
    | some prod =>
      let label := strUpper (strTrim (r.route_short_name.getD ""))
      if label = "" then m
      else
        let base3_keys :=
          (e.2.filter (fun sid => (stop_lookup sid).isSome)).image
            (useIdBase3 stop_lookup)
        let selected_ids :=
          base3_keys.biUnion (fun k => (lookupMM sb3 k).getD ∅)
        updMapping (updMapping m prod label selected_ids) "ALL" label
          selected_ids

/-- The built index: the nested mapping (total, defaulting to `[]`) and the
originating source string. -/
structure GtfsIndex where
  mapping : String → String → List String
  source : String

/-- gtfs_index.py `build_label_index` (lines 96-209), from the parsed
tables, the optional product and label filters, and the cached station
directory. (The `distance_threshold_m` parameter is never consulted by the
matching algorithm and is omitted.) -/
def build_label_index (tables : GtfsTables)
    (products labels : Option (List String)) (stations : List Station)
    (source : String) : GtfsIndex :=
  let products := normFilterSet products strUpper
  let labels := normFilterSet labels (fun s => strUpper (strTrim s))
  let fs := routeFilter products labels tables.routes
  let rt := routeTrips fs.route_ids tables.trips
  let ts := tripStops tables.stop_times
  let rs := routeStops rt ts
  let sl := stopLookup tables.stops
  let sb3 := stationBase3Map stations
  ⟨rs.foldl (mainStep tables.routes fs.route_product sl sb3) (fun _ _ => []),
    source⟩

/-- A route row is "mapped" when its route type has an entry in
`ROUTE_TYPE_TO_PRODUCT`. -/
def mappedRoute (r : RouteRow) : Bool :=
  (ROUTE_TYPE_TO_PRODUCT (r.route_type.getD "")).isSome

/-- The truthy route ids of a routes table, in order. -/
def truthyRouteIds (routes : List RouteRow) : List String :=
  routes.filterMap
    (fun r => if truthy r.route_id then some (r.route_id.getD "") else none)

/-! ## Theorems -/

/-- C1: the dedup-idempotence claim fails on the code. Inserting the spec's
own example pair — identical natural key, different fetchedAt — into an
initially empty store within one session committed at the end does report
the duplicate as a skip with counters inserted = 1, skipped = 1 and does not
abort the batch, but the final committed store holds zero rows, not exactly
one: the `session.rollback()` taken on the duplicate's IntegrityError also
undoes the first, already-flushed insert, because `insert_departures` never
opens a savepoint. -/
theorem c1_dedup_bug :
    ingest_persist [[exDep1, exDep2]] = ([], 1, 1) := by decide

/-- C2: the row-level-isolation claim fails on the code. In a single
persistence session over two station batches, a row flushed before the
conflict (`exDep1`) is lost: the rollback on the duplicate aborts the whole
open transaction, so after the final commit only the row flushed after the
conflict (`exDep3`) is stored, while the counters still report
inserted = 2, skipped = 1. -/
theorem c2_isolation_bug :
    ingest_persist [[exDep1], [exDep2, exDep3]] = ([exDep3], 2, 1) := by
  decide

/-- C3 counterexample: with target interval 60, current backoff 1 and an
instantaneous failing pass, the code's iteration lasts 60 time-units — the
backoff sleep is absorbed by the interval-compensating sleep, because
elapsed is measured after the backoff sleep — whereas the claim's reading
(backoff added on top of the cadence timing) yields 61. -/
theorem c3_counterexample :
    pollerIteration 60 1 ⟨0, false⟩ = (60, 2) ∧
    pollerIterationClaimed 60 1 ⟨0, false⟩ = (61, 2) ∧
    pollerIteration 60 1 ⟨0, false⟩ ≠ pollerIterationClaimed 60 1 ⟨0, false⟩ := by
  decide

/-- C3 amended: on a failing pass the poller sleeps the current backoff and
then applies the interval-compensating sleep computed from an elapsed time
that already includes the backoff sleep, so the iteration lasts
max(workTime + backoff, targetInterval) — the backoff is absorbed into the
cadence timing whenever workTime + backoff ≤ targetInterval, and extends the
iteration only beyond that; the backoff then doubles, capped at 60, and a
successful pass (lasting max(workTime, targetInterval)) resets it to 1. -/
theorem c3_amended (interval backoff work : Int) :
    pollerIteration interval backoff ⟨work, false⟩ =
      (max (work + backoff) interval, min (backoff * 2) 60) ∧
    pollerIteration interval backoff ⟨work, true⟩ = (max work interval, 1) ∧
    (work + backoff ≤ interval →
      (pollerIteration interval backoff ⟨work, false⟩).1 = interval) := by
  have hfail : pollerIteration interval backoff ⟨work, false⟩ =
      (work + backoff + max 0 (interval - (work + backoff)),
        min (backoff * 2) 60) := rfl
  have hok : pollerIteration interval backoff ⟨work, true⟩ =
      (work + max 0 (interval - work), 1) := rfl
  refine ⟨?_, ?_, ?_⟩
  · rw [hfail, Prod.mk.injEq]
    exact ⟨by omega, rfl⟩
  · rw [hok, Prod.mk.injEq]
    exact ⟨by omega, rfl⟩
  · intro h
    rw [hfail]
    simp only
    omega

/-- Witness for the amended C3: a concrete failing iteration (interval 60,
backoff 1, no work time) whose duration is exactly the target interval. -/
theorem c3_amended_witness :
    (0 : Int) + 1 ≤ 60 ∧ (pollerIteration 60 1 ⟨0, false⟩).1 = 60 :=
  ⟨by decide, (c3_amended 60 1 0).2.2 (by decide)⟩

/-- C5: timestamp normalization. An absent value normalizes to absent,
never to zero; a numeric value above the fixed threshold 10^10 is treated
as milliseconds and divided by 1000; a value at or below the threshold is
unchanged. -/
theorem c5_timestamp_normalization :
    _normalize_epoch_seconds none = none ∧
    (∀ v : Int, 10000000000 < v →
      _normalize_epoch_seconds (some v) = some (v / 1000)) ∧
    (∀ v : Int, v ≤ 10000000000 →
      _normalize_epoch_seconds (some v) = some v) := by
  refine ⟨rfl, ?_, ?_⟩
  · intro v h
    simp only [_normalize_epoch_seconds]
    rw [if_pos h]
  · intro v h
    simp only [_normalize_epoch_seconds]
    rw [if_neg (by omega)]

/-- Witness for C5 at the spec's examples: the 13-digit 1700000000000
normalizes to 1700000000, and the 10-digit 1700000000 is unchanged. -/
theorem c5_witness :
    (10000000000 : Int) < 1700000000000 ∧
    _normalize_epoch_seconds (some 1700000000000) = some 1700000000 ∧
    (1700000000 : Int) ≤ 10000000000 ∧
    _normalize_epoch_seconds (some 1700000000) = some 1700000000 := by
  refine ⟨by decide, ?_, by decide, ?_⟩
  · exact (c5_timestamp_normalization.2.1 1700000000000 (by decide)).trans
      (by decide)
  · exact c5_timestamp_normalization.2.2 1700000000 (by decide)

/-- Shared helper: whenever the delay or-chain of `fetch_departures` yields
`None`, the stored delay is the derived rounding when both normalized
timestamps are present, and `None` when either is absent. -/
theorem delay_derived_of_chain_none (stationId : String) (fetchedAt : Int)
    (item : ApiItem)
    (hd : pyOrInt item.delay_in_minutes item.delayInMinutes = none) :
    (∀ p r : Int, plannedOf item = some p → realtimeOf item = some r →
      (mkDeparture stationId fetchedAt item).delay_in_minutes =
        some (pyRoundDiv (r - p) 60)) ∧
    ((plannedOf item = none ∨ realtimeOf item = none) →
      (mkDeparture stationId fetchedAt item).delay_in_minutes = none) := by
  constructor
  · intro p r hp hr
    show delayOf item = some (pyRoundDiv (r - p) 60)
    unfold delayOf
    rw [hd, hp, hr]
  · intro h
    show delayOf item = none
    unfold delayOf
    rw [hd]
    rcases h with h | h <;> rw [h]
    all_goals cases hp : plannedOf item <;> cases hr : realtimeOf item <;> rfl

/-- C6: delay derivation. For a departure record built by the fetch loop
whose raw record carries no delay under either spelling, the stored delay
is round((realtime − planned)/60) when both normalized timestamps are
present, and absent when either timestamp is absent. -/
theorem c6_delay_derivation (stationId : String) (fetchedAt : Int)
    (item : ApiItem) (hsnake : item.delay_in_minutes = none)
    (hcamel : item.delayInMinutes = none) :
    (∀ p r : Int, plannedOf item = some p → realtimeOf item = some r →
      (mkDeparture stationId fetchedAt item).delay_in_minutes =
        some (pyRoundDiv (r - p) 60)) ∧
    ((plannedOf item = none ∨ realtimeOf item = none) →
      (mkDeparture stationId fetchedAt item).delay_in_minutes = none) := by
  apply delay_derived_of_chain_none
  rw [hsnake, hcamel]
  rfl

/-- A raw record with no delay under either spelling, planned = T and
realtime = T + 300 seconds. -/
def c6_item : ApiItem :=
  { planned_departure_time := some 1700000000
    plannedDepartureTime := none
    realtime_departure_time := some 1700000300
    realtimeDepartureTime := none
    delay_in_minutes := none
    delayInMinutes := none
    transport_type := some "TRAM"
    transportType := none
    label := some "T17"
    destination := some "Central"
    cancelled := some false
    platform := none
    realtime := some true }

/-- Witness for C6 at the spec's example: planned = T, realtime = T + 300s
and no upstream delay derive delayMinutes = 5. -/
theorem c6_witness :
    c6_item.delay_in_minutes = none ∧
    (mkDeparture "s1" 1700000000 c6_item).delay_in_minutes = some 5 := by
  refine ⟨rfl, ?_⟩
  have h := (c6_delay_derivation "s1" 1700000000 c6_item rfl rfl).1
    1700000000 1700000300 (by decide) (by decide)
  exact h.trans (by decide)

/-- A raw record reporting an explicit camelCase delay of 0 with both
timestamps present and realtime 300 seconds late. -/
def c9_item_camel0 : ApiItem :=
  { planned_departure_time := some 1700000000
    plannedDepartureTime := none
    realtime_departure_time := some 1700000300
    realtimeDepartureTime := none
    delay_in_minutes := none
    delayInMinutes := some 0
    transport_type := some "TRAM"
    transportType := none
    label := some "T17"
    destination := some "Central"
    cancelled := some false
    platform := none
    realtime := some true }

/-- A raw record reporting an explicit snake_case delay of 0 with the
realtime timestamp missing. -/
def c9_item_snake0 : ApiItem :=
  { c9_item_camel0 with
    delay_in_minutes := some 0
    delayInMinutes := none
    realtime_departure_time := none }

/-- C9 counterexample: the or-chain does not discard every explicit 0 — an
explicit camelCase 0 survives as the chain's second operand and is stored
as 0, not re-derived to 5 although both timestamps are present and 300
seconds apart; and a discarded snake_case 0 with a missing realtime
timestamp is stored as absent, not 0 (it does not "survive"). -/
theorem c9_counterexample :
    (mkDeparture "s1" 0 c9_item_camel0).delay_in_minutes = some 0 ∧
    pyRoundDiv (1700000300 - 1700000000) 60 = 5 ∧
    (mkDeparture "s1" 0 c9_item_camel0).delay_in_minutes ≠
      some (pyRoundDiv (1700000300 - 1700000000) 60) ∧
    (mkDeparture "s1" 0 c9_item_snake0).delay_in_minutes = none := by
  decide

/-- C9 amended: the or-chain discards an explicit 0 only in its first,
snake_case position: a snake_case 0 with the camelCase key absent behaves
exactly like an absent delay — re-derived (possibly to a nonzero value)
when both timestamps are present, stored as absent (not 0) when either
timestamp is missing; while an explicit camelCase 0 is returned verbatim by
the chain and stored as 0 regardless of the timestamps. -/
theorem c9_amended (stationId : String) (fetchedAt : Int) (item : ApiItem) :
    ((item.delay_in_minutes = some 0 → item.delayInMinutes = none →
      (∀ p r : Int, plannedOf item = some p → realtimeOf item = some r →
        (mkDeparture stationId fetchedAt item).delay_in_minutes =
          some (pyRoundDiv (r - p) 60)) ∧
      ((plannedOf item = none ∨ realtimeOf item = none) →
        (mkDeparture stationId fetchedAt item).delay_in_minutes = none))) ∧
    ((item.delay_in_minutes = none ∨ item.delay_in_minutes = some 0) →
      item.delayInMinutes = some 0 →
      (mkDeparture stationId fetchedAt item).delay_in_minutes = some 0) := by
  constructor
  · intro h0 hcamel
    apply delay_derived_of_chain_none
    rw [h0, hcamel]
    rfl
  · intro h1 h2
    show delayOf item = some 0
    unfold delayOf
    have hd : pyOrInt item.delay_in_minutes item.delayInMinutes = some 0 := by
      rcases h1 with h | h <;> rw [h, h2] <;> rfl
    rw [hd]

/-- Witness for the amended C9: a snake_case 0 with a missing realtime
timestamp is stored as absent, and a camelCase 0 is stored as 0. -/
theorem c9_amended_witness :
    c9_item_snake0.delay_in_minutes = some 0 ∧
    (mkDeparture "s1" 0 c9_item_snake0).delay_in_minutes = none ∧
    c9_item_camel0.delayInMinutes = some 0 ∧
    (mkDeparture "s1" 0 c9_item_camel0).delay_in_minutes = some 0 := by
  refine ⟨rfl, ?_, rfl, ?_⟩
  · exact ((c9_amended "s1" 0 c9_item_snake0).1 rfl rfl).2 (Or.inr (by decide))
  · exact (c9_amended "s1" 0 c9_item_camel0).2 (Or.inl rfl) rfl

/-- Shared helper: the per-station keep test of the non-bypass branch of
`filter_stations_by_products` equals the direct case-insensitive
intersection test between declared and requested products. -/
theorem station_pred_eq (ps : List String) (s : Station) :
    (match s.products with
      | none => false
      | some sprods =>
        !sprods.isEmpty && (sprods.map strUpper).any
          (fun p => (ps.map strUpper).contains p)) =
    (s.products.getD []).any
      (fun p => ps.any (fun q => strUpper p == strUpper q)) := by
  cases hsp : s.products with
  | none => rfl
  | some d =>
    simp only [Option.getD_some]
    rw [Bool.eq_iff_iff]
    constructor
    · intro hl
      rw [Bool.and_eq_true] at hl
      obtain ⟨-, hany⟩ := hl
      rw [List.any_eq_true] at hany
      obtain ⟨pu, hpu, hc⟩ := hany
      rw [List.mem_map] at hpu
      obtain ⟨p, hp, rfl⟩ := hpu
      have hmem : strUpper p ∈ ps.map strUpper := List.elem_iff.mp hc
      rw [List.mem_map] at hmem
      obtain ⟨q, hq, hqe⟩ := hmem
      rw [List.any_eq_true]
      refine ⟨p, hp, ?_⟩
      rw [List.any_eq_true]
      exact ⟨q, hq, beq_iff_eq.mpr hqe.symm⟩
    · intro hr
      rw [List.any_eq_true] at hr
      obtain ⟨p, hp, hq'⟩ := hr
      rw [List.any_eq_true] at hq'
      obtain ⟨q, hq, he⟩ := hq'
      rw [Bool.and_eq_true]
      refine ⟨?_, ?_⟩
      · cases d with
        | nil => exact absurd hp (List.not_mem_nil p)
        | cons a t => rfl
      · rw [List.any_eq_true]
        refine ⟨strUpper p, List.mem_map.mpr ⟨p, hp, rfl⟩, ?_⟩
        exact List.elem_iff.mpr
          (List.mem_map.mpr ⟨q, hq, (beq_iff_eq.mp he).symm⟩)

/-- Shared helper: a requested set containing the literal string "ALL"
bypasses the filter. -/
theorem filter_stations_bypass (stations : List Station) (ps : List String)
    (h : "ALL" ∈ ps) :
    filter_stations_by_products stations (some ps) = stations := by
  have hc : (ps.isEmpty || ps.contains "ALL") = true := by
    rw [Bool.or_eq_true]
    exact Or.inr (List.elem_iff.mpr h)
  simp only [filter_stations_by_products]
  rw [if_pos hc]

/-- Shared helper: a nonempty requested set without the literal "ALL"
filters by case-insensitive product intersection. -/
theorem filter_stations_no_bypass (stations : List Station)
    (ps : List String) (h1 : "ALL" ∉ ps) (h2 : ps ≠ []) :
    filter_stations_by_products stations (some ps) =
      stations.filter (fun s =>
        (s.products.getD []).any
          (fun p => ps.any (fun q => strUpper p == strUpper q))) := by
  have hcontains : ps.contains "ALL" = false :=
    Bool.eq_false_iff.mpr (fun hx => h1 (List.elem_iff.mp hx))
  have hempty : ps.isEmpty = false :=
    Bool.eq_false_iff.mpr (fun hx => h2 (List.isEmpty_iff.mp hx))
  have hc : (ps.isEmpty || ps.contains "ALL") = false := by
    rw [hcontains, hempty]
    rfl
  simp only [filter_stations_by_products, hc, Bool.false_eq_true, if_false]
  exact List.filter_congr (fun s _ => station_pred_eq ps s)

/-- C7: station product filtering. A requested set containing "ALL"
bypasses filtering and returns every station; otherwise a station is kept
exactly when its declared product set intersects the requested products,
compared case-insensitively (a station with no declared products is never
kept). -/
theorem c7_product_filtering (stations : List Station) (ps : List String) :
    ("ALL" ∈ ps → filter_stations_by_products stations (some ps) = stations) ∧
    ("ALL" ∉ ps → ps ≠ [] →
      ∀ s, s ∈ filter_stations_by_products stations (some ps) ↔
        s ∈ stations ∧ ∃ d, s.products = some d ∧
          ∃ p ∈ d, ∃ q ∈ ps, strUpper p = strUpper q) := by
  refine ⟨filter_stations_bypass stations ps, ?_⟩
  intro h1 h2 s
  rw [filter_stations_no_bypass stations ps h1 h2]
  simp only [List.mem_filter]
  refine and_congr_right fun _ => ?_
  cases hsp : s.products with
  | none => simp
  | some d => simp [List.any_eq_true, beq_iff_eq]

/-- The four stations of spec §8's product-filtering example. -/
def st1 : Station := ⟨"s1", "Alpha", some ["TRAM"]⟩

/-- Station with two declared products. -/
def st2 : Station := ⟨"s2", "Beta", some ["BUS", "TRAM"]⟩

/-- Station with a non-matching declared product. -/
def st3 : Station := ⟨"s3", "Gamma", some ["UBAHN"]⟩

/-- Station with no declared products. -/
def st4 : Station := ⟨"s4", "Delta", none⟩

/-- The example station directory. -/
def demoStations : List Station := [st1, st2, st3, st4]

/-- Witness for C7 at the spec's example: filtering by TRAM keeps exactly
s1 and s2 (s2 through the theorem's intersection criterion), and ALL
returns all four stations. -/
theorem c7_witness :
    filter_stations_by_products demoStations (some ["TRAM"]) = [st1, st2] ∧
    st2 ∈ filter_stations_by_products demoStations (some ["TRAM"]) ∧
    filter_stations_by_products demoStations (some ["ALL"]) = demoStations := by
  refine ⟨by decide, ?_,
    (c7_product_filtering demoStations ["ALL"]).1 (by decide)⟩
  exact ((c7_product_filtering demoStations ["TRAM"]).2 (by decide)
      (by decide) st2).mpr ⟨by decide, ["BUS", "TRAM"], rfl, by decide⟩

/-- C10: the "ALL" bypass is literal and case-sensitive — the membership
test runs before the requested set is upper-cased, so only the exact string
"ALL" (not, e.g., "all") triggers it — while ordinary product names are
compared case-insensitively; and an absent (None) or empty requested set
bypasses filtering exactly like "ALL". -/
theorem c10_all_bypass_case_sensitive (stations : List Station)
    (ps : List String) :
    filter_stations_by_products stations none = stations ∧
    filter_stations_by_products stations (some []) = stations ∧
    ("ALL" ∈ ps → filter_stations_by_products stations (some ps) = stations) ∧
    ("ALL" ∉ ps → ps ≠ [] →
      filter_stations_by_products stations (some ps) =
        stations.filter (fun s =>
          (s.products.getD []).any
            (fun p => ps.any (fun q => strUpper p == strUpper q)))) :=
  ⟨rfl, rfl, filter_stations_bypass stations ps,
    filter_stations_no_bypass stations ps⟩

/-- Witness for C10: the lowercase request \x7b"all"\x7d does not bypass —
the filter applies (matching product names case-insensitively) and drops
every station of the example directory, none of which declares an "all"
product — while the empty and absent requests return all stations. -/
theorem c10_witness :
    ("ALL" : String) ∉ ["all"] ∧
    filter_stations_by_products demoStations (some ["all"]) =
      demoStations.filter (fun s =>
        (s.products.getD []).any
          (fun p => ["all"].any (fun q => strUpper p == strUpper q))) ∧
    filter_stations_by_products demoStations (some ["all"]) = [] ∧
    filter_stations_by_products demoStations none = demoStations := by
  refine ⟨by decide, ?_, by decide, ?_⟩
  · exact (c10_all_bypass_case_sensitive demoStations ["all"]).2.2.2
      (by decide) (by decide)
  · exact (c10_all_bypass_case_sensitive demoStations ["all"]).1

/-- The invariant of the main loop's mapping: every per-product, per-label
station-id list is ascending and duplicate-free. -/
def SortedNodupInv (m : String → String → List String) : Prop :=
  ∀ p l, (m p l).Sorted (· ≤ ·) ∧ (m p l).Nodup

/-- A `Finset.sort`ed list is sorted. -/
theorem sortedList_sorted (s : Finset String) :
    (sortedList s).Sorted (· ≤ ·) :=
  Finset.sort_sorted _ _

/-- A `Finset.sort`ed list is duplicate-free. -/
theorem sortedList_nodup (s : Finset String) : (sortedList s).Nodup :=
  Finset.sort_nodup _ _

/-- A mapping update stores a sorted, duplicate-free list and keeps every
other entry. -/
theorem updMapping_inv {m : String → String → List String}
    (h : SortedNodupInv m) (p l : String) (ids : Finset String) :
    SortedNodupInv (updMapping m p l ids) := by
  intro p' l'
  unfold updMapping
  split
  · exact ⟨sortedList_sorted _, sortedList_nodup _⟩
  · exact h p' l'

/-- One main-loop iteration preserves the invariant. -/
theorem mainStep_inv (routes : List RouteRow)
    (rp : String → Option String) (sl : String → Option StopRow)
    (sb3 : List (String × Finset String))
    {m : String → String → List String} (h : SortedNodupInv m)
    (e : String × Finset String) :
    SortedNodupInv (mainStep routes rp sl sb3 m e) := by
  unfold mainStep
  split
  · exact h
  · split
    · exact h
    · dsimp only
      split
      · exact h
      · exact updMapping_inv (updMapping_inv h _ _ _) _ _ _

/-- A fold preserves any invariant its step preserves. -/
theorem foldl_inv {α β : Type} {P : β → Prop} (step : β → α → β)
    (hstep : ∀ b a, P b → P (step b a)) :
    ∀ (l : List α) (b : β), P b → P (l.foldl step b) := by
  intro l
  induction l with
  | nil => exact fun b hb => hb
  | cons a t ih => exact fun b hb => ih _ (hstep b a hb)

/-- Every mapping built by `build_label_index` satisfies the invariant. -/
theorem build_mapping_inv (tables : GtfsTables)
    (products labels : Option (List String)) (stations : List Station)
    (source : String) :
    SortedNodupInv
      (build_label_index tables products labels stations source).mapping := by
  unfold build_label_index
  exact foldl_inv (P := SortedNodupInv) _
    (fun b a hb => mainStep_inv _ _ _ _ hb a) _ _
    (fun p l => ⟨List.sorted_nil, List.nodup_nil⟩)

/-- C8: index determinism and sorted output. Building the index twice from
the same static-feed tables, the same filters and the same station cache
yields identical mappings (the build is a pure function of its inputs), and
in every built index each per-product, per-label station-id list is sorted
ascending and duplicate-free. -/
theorem c8_determinism_and_sorted (tables : GtfsTables)
    (products labels : Option (List String)) (stations : List Station)
    (source : String) :
    build_label_index tables products labels stations source =
      build_label_index tables products labels stations source ∧
    ∀ p l,
      ((build_label_index tables products labels stations
          source).mapping p l).Sorted (· ≤ ·) ∧
      ((build_label_index tables products labels stations
          source).mapping p l).Nodup := by
  exact ⟨rfl, build_mapping_inv tables products labels stations source⟩

/-! ### Supporting lemmas: the routes loop decomposed

The two components of `RouteFilterState` evolve independently of each
other; projecting the routes-loop fold onto each component lets the effect
of dropping unmapped route rows be tracked separately. -/

/-- The `route_product` component of one routes-loop iteration. -/
def productStep (products labels : Option (List String))
    (rp : String → Option String) (r : RouteRow) : String → Option String :=
  if passesFilters products labels r && truthy r.route_id then
    match ROUTE_TYPE_TO_PRODUCT (r.route_type.getD "") with
    | some t => fun x => if x = r.route_id.getD "" then some t else rp x
    | none => rp
  else rp

/-- The `route_ids` component of one routes-loop iteration. -/
def idsStep (products labels : Option (List String)) (ids : List String)
    (r : RouteRow) : List String :=
  if passesFilters products labels r && truthy r.route_id then
    ids ++ [r.route_id.getD ""]
  else ids

/-- The routes-loop step projects onto `productStep`. -/
theorem routeFilterStep_product (ps ls : Option (List String))
    (st : RouteFilterState) (r : RouteRow) :
    (routeFilterStep ps ls st r).route_product =
      productStep ps ls st.route_product r := by
  unfold routeFilterStep productStep
  split
  · cases h : ROUTE_TYPE_TO_PRODUCT (r.route_type.getD "") <;> rfl
  · rfl

/-- The routes-loop step projects onto `idsStep`. -/
theorem routeFilterStep_ids (ps ls : Option (List String))
    (st : RouteFilterState) (r : RouteRow) :
    (routeFilterStep ps ls st r).route_ids = idsStep ps ls st.route_ids r := by
  unfold routeFilterStep idsStep
  split
  · cases h : ROUTE_TYPE_TO_PRODUCT (r.route_type.getD "") <;> rfl
  · rfl

/-- The routes-loop fold projects onto a `productStep` fold. -/
theorem foldl_routeFilter_product (ps ls : Option (List String)) :
    ∀ (routes : List RouteRow) (st : RouteFilterState),
      (List.foldl (routeFilterStep ps ls) st routes).route_product =
        List.foldl (productStep ps ls) st.route_product routes := by
  intro routes
  induction routes with
  | nil => intro st; rfl
  | cons r t ih =>
    intro st
    rw [List.foldl_cons, List.foldl_cons, ih, routeFilterStep_product]

/-- The routes-loop fold projects onto an `idsStep` fold. -/
theorem foldl_routeFilter_ids (ps ls : Option (List String)) :
    ∀ (routes : List RouteRow) (st : RouteFilterState),
      (List.foldl (routeFilterStep ps ls) st routes).route_ids =
        List.foldl (idsStep ps ls) st.route_ids routes := by
  intro routes
  induction routes with
  | nil => intro st; rfl
  | cons r t ih =>
    intro st
    rw [List.foldl_cons, List.foldl_cons, ih, routeFilterStep_ids]

/-- An unmapped route row never touches `route_product`. -/
theorem productStep_unmapped (ps ls : Option (List String))
    (rp : String → Option String) (r : RouteRow)
    (h : mappedRoute r = false) : productStep ps ls rp r = rp := by
  unfold productStep
  split
  · unfold mappedRoute at h
    cases hm : ROUTE_TYPE_TO_PRODUCT (r.route_type.getD "") with
    | none => rfl
    | some t => rw [hm] at h; simp at h
  · rfl

/-- Dropping the unmapped route rows leaves the `route_product` fold
unchanged. -/
theorem foldl_product_filter_mapped (ps ls : Option (List String)) :
    ∀ (routes : List RouteRow) (rp : String → Option String),
      List.foldl (productStep ps ls) rp (routes.filter mappedRoute) =
        List.foldl (productStep ps ls) rp routes := by
  intro routes
  induction routes with
  | nil => intro rp; rfl
  | cons r t ih =>
    intro rp
    by_cases hm : mappedRoute r = true
    · rw [List.filter_cons_of_pos hm, List.foldl_cons, List.foldl_cons, ih]
    · have hm' : mappedRoute r = false := by
        cases hx : mappedRoute r
        · rfl
        · exact absurd hx hm
      rw [List.filter_cons_of_neg hm, List.foldl_cons,
        productStep_unmapped ps ls rp r hm', ih]

/-- A row contributes id `x` to `route_ids` iff it passes both filters, has
a truthy route id, and that id is `x`. -/
def routeGivesId (ps ls : Option (List String)) (r : RouteRow) (x : String) :
    Prop :=
  (passesFilters ps ls r && truthy r.route_id) = true ∧ r.route_id.getD "" = x

/-- Membership in the `route_ids` fold. -/
theorem mem_foldl_ids (ps ls : Option (List String)) :
    ∀ (routes : List RouteRow) (ids : List String) (x : String),
      x ∈ List.foldl (idsStep ps ls) ids routes ↔
        x ∈ ids ∨ ∃ r ∈ routes, routeGivesId ps ls r x := by
  intro routes
  induction routes with
  | nil => intro ids x; simp
  | cons r t ih =>
    intro ids x
    rw [List.foldl_cons, ih]
    unfold idsStep routeGivesId
    by_cases hc : (passesFilters ps ls r && truthy r.route_id) = true
    · simp only [hc, if_true, List.mem_append, List.mem_singleton,
        List.mem_cons]
      constructor
      · rintro ((hx | hx | hx) | ⟨r', hr', hg⟩)
        · exact Or.inl hx
        · exact Or.inr ⟨r, Or.inl rfl, hc, hx.symm⟩
        · exact absurd hx (List.not_mem_nil x)
        · exact Or.inr ⟨r', Or.inr hr', hg⟩
      · rintro (hx | ⟨r', hr' | hr', hg⟩)
        · exact Or.inl (Or.inl hx)
        · exact Or.inl (Or.inr (Or.inl (hr' ▸ hg.2).symm))
        · exact Or.inr ⟨r', hr', hg⟩
    · simp only [hc, if_false, List.mem_cons]
      constructor
      · rintro (hx | ⟨r', hr', hg⟩)
        · exact Or.inl hx
        · exact Or.inr ⟨r', Or.inr hr', hg⟩
      · rintro (hx | ⟨r', hr' | hr', hg⟩)
        · exact Or.inl hx
        · exact absurd (hr' ▸ hg.1) hc
        · exact Or.inr ⟨r', hr', hg⟩

/-- If every routes row writing key `x` is unmapped, the folded
`route_product` is `none` at `x`. -/
theorem foldl_product_none (ps ls : Option (List String)) :
    ∀ (routes : List RouteRow) (rp : String → Option String) (x : String),
      rp x = none →
      (∀ r ∈ routes, r.route_id.getD "" = x → mappedRoute r = false) →
      List.foldl (productStep ps ls) rp routes x = none := by
  intro routes
  induction routes with
  | nil => intro rp x h0 _; exact h0
  | cons r t ih =>
    intro rp x h0 hall
    rw [List.foldl_cons]
    apply ih
    · unfold productStep
      split
      · cases hm : ROUTE_TYPE_TO_PRODUCT (r.route_type.getD "") with
        | none => exact h0
        | some tt =>
          by_cases hx : x = r.route_id.getD ""
          · exfalso
            have hbad := hall r (List.mem_cons_self _ _) hx.symm
            unfold mappedRoute at hbad
            rw [hm] at hbad
            simp at hbad
          · simp only [if_neg hx]
            exact h0
      · exact h0
    · exact fun r' hr' hx => hall r' (List.mem_cons_of_mem _ hr') hx

/-! ### Supporting lemmas: multimaps under key filtering -/

/-- Filtering a multimap by key commutes with an insertion: an insertion
under a kept key lands in the filtered multimap, one under a dropped key
disappears. -/
theorem filter_addToMultimap (p : String → Bool) (k v : String) :
    ∀ m : List (String × Finset String),
      (addToMultimap m k v).filter (fun e => p e.1) =
        if p k then addToMultimap (m.filter (fun e => p e.1)) k v
        else m.filter (fun e => p e.1) := by
  intro m
  induction m with
  | nil =>
    by_cases hp : p k = true
    · simp [addToMultimap, List.filter_cons, hp]
    · simp [addToMultimap, List.filter_cons, hp]
  | cons e t ih =>
    obtain ⟨k', vs⟩ := e
    by_cases hk : k' = k
    · subst hk
      by_cases hp : p k' = true
      · simp [addToMultimap, List.filter_cons, hp]
      · simp [addToMultimap, List.filter_cons, hp]
    · by_cases hp : p k' = true
      · by_cases hpk : p k = true
        · simp [addToMultimap, List.filter_cons, hk, hp, hpk, ih]
        · simp [addToMultimap, List.filter_cons, hk, hp, hpk, ih]
      · by_cases hpk : p k = true
        · simp [addToMultimap, List.filter_cons, hk, hp, hpk, ih]
        · simp [addToMultimap, List.filter_cons, hk, hp, hpk, ih]

/-- One trips-loop iteration with the smaller surviving-route set equals
the key-filtered iteration with the larger one. -/
theorem tripStep_filter (rids rids' : List String)
    (hsub : ∀ x, x ∈ rids' → x ∈ rids)
    (acc : List (String × Finset String)) (t : TripRow) :
    tripStep rids' (acc.filter (fun e => decide (e.1 ∈ rids'))) t =
      (tripStep rids acc t).filter (fun e => decide (e.1 ∈ rids')) := by
  rcases hrid : t.route_id with _ | rid
  · simp [tripStep, hrid]
  · simp only [tripStep, hrid]
    by_cases h' : rid ∈ rids'
    · rw [if_pos h', if_pos (hsub rid h')]
      by_cases ht : truthy t.trip_id = true
      · rw [if_pos ht, if_pos ht]
        have hfa := filter_addToMultimap (fun x => decide (x ∈ rids')) rid
          (t.trip_id.getD "") acc
        rw [if_pos (decide_eq_true h')] at hfa
        exact hfa.symm
      · rw [if_neg ht, if_neg ht]
    · rw [if_neg h']
      by_cases h : rid ∈ rids
      · rw [if_pos h]
        by_cases ht : truthy t.trip_id = true
        · rw [if_pos ht]
          have hfa := filter_addToMultimap (fun x => decide (x ∈ rids')) rid
            (t.trip_id.getD "") acc
          rw [if_neg (fun hx => h' (of_decide_eq_true hx))] at hfa
          exact hfa.symm
        · rw [if_neg ht]
      · rw [if_neg h]

/-- The trips-loop fold with the smaller surviving-route set equals the
key-filtered fold with the larger one. -/
theorem foldl_tripStep_filter (rids rids' : List String)
    (hsub : ∀ x, x ∈ rids' → x ∈ rids) :
    ∀ (trips : List TripRow) (acc : List (String × Finset String)),
      List.foldl (tripStep rids')
          (acc.filter (fun e => decide (e.1 ∈ rids'))) trips =
        (List.foldl (tripStep rids) acc trips).filter
          (fun e => decide (e.1 ∈ rids')) := by
  intro trips
  induction trips with
  | nil => intro acc; rfl
  | cons t ts ih =>
    intro acc
    rw [List.foldl_cons, List.foldl_cons, tripStep_filter rids rids' hsub,
      ih]

/-- Keys of an insertion come from the inserted key or the old keys. -/
theorem mem_addToMultimap_keys (k v : String) :
    ∀ (m : List (String × Finset String)) (e : String × Finset String),
      e ∈ addToMultimap m k v → e.1 = k ∨ ∃ e' ∈ m, e.1 = e'.1 := by
  intro m
  induction m with
  | nil =>
    intro e he
    unfold addToMultimap at he
    rw [List.mem_singleton] at he
    exact Or.inl (by rw [he])
  | cons a t ih =>
    intro e he
    obtain ⟨k', vs⟩ := a
    unfold addToMultimap at he
    by_cases hk : k' = k
    · rw [if_pos hk, List.mem_cons] at he
      rcases he with he | he
      · exact Or.inl (by rw [he, hk])
      · exact Or.inr ⟨e, List.mem_cons_of_mem _ he, rfl⟩
    · rw [if_neg hk, List.mem_cons] at he
      rcases he with he | he
      · exact Or.inr ⟨(k', vs), List.mem_cons_self _ _, by rw [he]⟩
      · rcases ih e he with h | ⟨e', he', hee⟩
        · exact Or.inl h
        · exact Or.inr ⟨e', List.mem_cons_of_mem _ he', hee⟩

/-- Every key of the trips-loop fold lies in the surviving-route set. -/
theorem foldl_tripStep_keys (rids : List String) :
    ∀ (trips : List TripRow) (acc : List (String × Finset String)),
      (∀ e ∈ acc, e.1 ∈ rids) →
      ∀ e ∈ List.foldl (tripStep rids) acc trips, e.1 ∈ rids := by
  intro trips
  induction trips with
  | nil => intro acc hacc; exact hacc
  | cons t ts ih =>
    intro acc hacc
    rw [List.foldl_cons]
    apply ih
    intro e he
    rcases hrid : t.route_id with _ | rid
    · simp only [tripStep, hrid] at he
      exact hacc e he
    · simp only [tripStep, hrid] at he
      by_cases hin : rid ∈ rids
      · rw [if_pos hin] at he
        by_cases ht : truthy t.trip_id = true
        · rw [if_pos ht] at he
          rcases mem_addToMultimap_keys rid (t.trip_id.getD "") acc e he
            with h | ⟨e', he', hee⟩
          · rw [h]; exact hin
          · rw [hee]; exact hacc e' he'
        · rw [if_neg ht] at he
          exact hacc e he
      · rw [if_neg hin] at he
        exact hacc e he

/-- `routeStops` preserves keys, so it commutes with key filtering. -/
theorem routeStops_filter (p : String → Bool)
    (ts : List (String × Finset String)) :
    ∀ rt : List (String × Finset String),
      routeStops (rt.filter (fun e => p e.1)) ts =
        (routeStops rt ts).filter (fun e => p e.1) := by
  intro rt
  induction rt with
  | nil => rfl
  | cons e t ih =>
    unfold routeStops at ih ⊢
    by_cases hp : p e.1 = true
    · simp [List.filter_cons, hp, ih]
    · simp [List.filter_cons, hp, ih]

/-- Keys of `routeStops` are the keys of its input multimap. -/
theorem routeStops_keys (ts : List (String × Finset String)) :
    ∀ (rt : List (String × Finset String)) (e : String × Finset String),
      e ∈ routeStops rt ts → ∃ e' ∈ rt, e.1 = e'.1 := by
  intro rt e he
  unfold routeStops at he
  rw [List.mem_map] at he
  obtain ⟨a, ha, rfl⟩ := he
  exact ⟨a, ha, rfl⟩

/-- Generic: a fold over a key-filtered list equals the fold over the full
list when the step is the identity on every dropped element. -/
theorem foldl_filter_of_skip {α β : Type} (step : β → α → β) (p : α → Bool) :
    ∀ l : List α, (∀ (b : β), ∀ a ∈ l, p a = false → step b a = b) →
      ∀ b : β, List.foldl step b (l.filter p) = List.foldl step b l := by
  intro l
  induction l with
  | nil => intro _ b; rfl
  | cons a t ih =>
    intro h b
    by_cases hp : p a = true
    · rw [List.filter_cons_of_pos hp, List.foldl_cons, List.foldl_cons]
      exact ih (fun b' a' ha' => h b' a' (List.mem_cons_of_mem _ ha')) _
    · have hp' : p a = false := by
        cases hx : p a
        · rfl
        · exact absurd hx hp
      rw [List.filter_cons_of_neg hp, List.foldl_cons,
        h b a (List.mem_cons_self _ _) hp']
      exact ih (fun b' a' ha' => h b' a' (List.mem_cons_of_mem _ ha')) _

/-- Generic: two folds agree when their steps agree on every element. -/
theorem foldl_congr_step {α β : Type} (step1 step2 : β → α → β) :
    ∀ l : List α, (∀ (b : β), ∀ a ∈ l, step1 b a = step2 b a) →
      ∀ b : β, List.foldl step1 b l = List.foldl step2 b l := by
  intro l
  induction l with
  | nil => intro _ b; rfl
  | cons a t ih =>
    intro h b
    rw [List.foldl_cons, List.foldl_cons, h b a (List.mem_cons_self _ _)]
    exact ih (fun b' a' ha' => h b' a' (List.mem_cons_of_mem _ ha')) _

/-- Generic: `find?` ignores a filter that keeps every hit of its
predicate. -/
theorem find?_filter_of_imp {α : Type} (p q : α → Bool) :
    ∀ l : List α, (∀ r ∈ l, q r = true → p r = true) →
      (l.filter p).find? q = l.find? q := by
  intro l
  induction l with
  | nil => intro _; rfl
  | cons a t ih =>
    intro h
    by_cases hq : q a = true
    · rw [List.filter_cons_of_pos (h a (List.mem_cons_self _ _) hq),
        List.find?_cons_of_pos _ hq, List.find?_cons_of_pos _ hq]
    · by_cases hp : p a = true
      · rw [List.filter_cons_of_pos hp, List.find?_cons_of_neg _ hq,
          List.find?_cons_of_neg _ hq]
        exact ih (fun r hr => h r (List.mem_cons_of_mem _ hr))
      · rw [List.filter_cons_of_neg hp, List.find?_cons_of_neg _ hq]
        exact ih (fun r hr => h r (List.mem_cons_of_mem _ hr))

/-- A truthy optional string is a `some` of a non-empty string. -/
theorem truthy_getD {v : Option String} (h : truthy v = true) :
    v = some (v.getD "") ∧ v.getD "" ≠ "" := by
  cases v with
  | none => simp [truthy] at h
  | some s =>
    refine ⟨rfl, ?_⟩
    intro hs
    rw [Option.getD_some] at hs
    subst hs
    simp [truthy] at h

/-- Conversely, a `some` of a non-empty string is truthy. -/
theorem truthy_of_some {s : String} (hs : s ≠ "") :
    truthy (some s) = true := by
  simp [truthy, hs]

/-- Under a duplicate-free truthy-route-id table, two rows carrying the
same truthy route id are the same row. -/
theorem truthy_ids_unique :
    ∀ routes : List RouteRow, (truthyRouteIds routes).Nodup →
      ∀ r1 ∈ routes, ∀ r2 ∈ routes,
        truthy r1.route_id = true → truthy r2.route_id = true →
        r1.route_id.getD "" = r2.route_id.getD "" → r1 = r2 := by
  intro routes
  induction routes with
  | nil => intro _ r1 h1; exact absurd h1 (List.not_mem_nil r1)
  | cons a t ih =>
    intro hnd r1 h1 r2 h2 ht1 ht2 heq
    have hfa : ∀ r ∈ t, truthy r.route_id = true →
        r.route_id.getD "" ∈ truthyRouteIds t := by
      intro r hr htr
      unfold truthyRouteIds
      rw [List.mem_filterMap]
      exact ⟨r, hr, by rw [if_pos htr]⟩
    rcases List.mem_cons.mp h1 with rfl | h1'
    · rcases List.mem_cons.mp h2 with rfl | h2'
      · rfl
      · exfalso
        unfold truthyRouteIds at hnd
        rw [List.filterMap_cons, if_pos ht1, List.nodup_cons] at hnd
        exact hnd.1 (heq ▸ hfa r2 h2' ht2)
    · rcases List.mem_cons.mp h2 with rfl | h2'
      · exfalso
        unfold truthyRouteIds at hnd
        rw [List.filterMap_cons, if_pos ht2, List.nodup_cons] at hnd
        exact hnd.1 (heq ▸ hfa r1 h1' ht1)
      · have hnd' : (truthyRouteIds t).Nodup := by
          unfold truthyRouteIds at hnd ⊢
          rw [List.filterMap_cons] at hnd
          cases hf : (if truthy a.route_id = true
              then some (a.route_id.getD "") else none) with
          | none => rw [hf] at hnd; exact hnd
          | some b => rw [hf, List.nodup_cons] at hnd; exact hnd.2
        exact ih hnd' r1 h1' r2 h2' ht1 ht2 heq

/-- The main loop skips an entry whose route id has no product. -/
theorem mainStep_of_product_none (routes : List RouteRow)
    (rp : String → Option String) (sl : String → Option StopRow)
    (sb3 : List (String × Finset String))
    (m : String → String → List String) (e : String × Finset String)
    (h : rp e.1 = none) : mainStep routes rp sl sb3 m e = m := by
  unfold mainStep
  split
  · rfl
  · rw [h]

/-- The main loop only consults the routes table through `find?` on the
entry's route id. -/
theorem mainStep_congr_routes (routes1 routes2 : List RouteRow)
    (rp : String → Option String) (sl : String → Option StopRow)
    (sb3 : List (String × Finset String))
    (m : String → String → List String) (e : String × Finset String)
    (h : routes1.find? (fun x => x.route_id == some e.1) =
        routes2.find? (fun x => x.route_id == some e.1)) :
    mainStep routes1 rp sl sb3 m e = mainStep routes2 rp sl sb3 m e := by
  unfold mainStep
  rw [h]

/-- The whole pure pipeline of `build_label_index`, run once on the routes
table with its unmapped rows deleted and once on the full table, produces
the same mapping, provided the truthy route ids of the table are
duplicate-free (one routes row per route). -/
theorem pipeline_filter_mapped (ps ls : Option (List String))
    (routes : List RouteRow) (trips : List TripRow)
    (stop_times : List StopTimeRow) (sl : String → Option StopRow)
    (sb3 : List (String × Finset String))
    (hnd : (truthyRouteIds routes).Nodup) :
    List.foldl
      (mainStep (routes.filter mappedRoute)
        (routeFilter ps ls (routes.filter mappedRoute)).route_product sl sb3)
      (fun _ _ => [])
      (routeStops
        (routeTrips
          (routeFilter ps ls (routes.filter mappedRoute)).route_ids trips)
        (tripStops stop_times)) =
    List.foldl
      (mainStep routes (routeFilter ps ls routes).route_product sl sb3)
      (fun _ _ => [])
      (routeStops (routeTrips (routeFilter ps ls routes).route_ids trips)
        (tripStops stop_times)) := by
  have hrp : (routeFilter ps ls (routes.filter mappedRoute)).route_product =
      (routeFilter ps ls routes).route_product := by
    unfold routeFilter
    rw [foldl_routeFilter_product, foldl_routeFilter_product]
    exact foldl_product_filter_mapped ps ls routes _
  have hmemR : ∀ x, x ∈ (routeFilter ps ls routes).route_ids ↔
      ∃ r ∈ routes, routeGivesId ps ls r x := by
    intro x
    unfold routeFilter
    rw [foldl_routeFilter_ids, mem_foldl_ids]
    simp
  have hmemF : ∀ x,
      x ∈ (routeFilter ps ls (routes.filter mappedRoute)).route_ids ↔
        ∃ r ∈ routes.filter mappedRoute, routeGivesId ps ls r x := by
    intro x
    unfold routeFilter
    rw [foldl_routeFilter_ids, mem_foldl_ids]
    simp
  have hsub : ∀ x,
      x ∈ (routeFilter ps ls (routes.filter mappedRoute)).route_ids →
        x ∈ (routeFilter ps ls routes).route_ids := by
    intro x hx
    rw [hmemF x] at hx
    rw [hmemR x]
    obtain ⟨r, hr, hg⟩ := hx
    exact ⟨r, (List.mem_filter.mp hr).1, hg⟩
  have hrt : routeTrips
        (routeFilter ps ls (routes.filter mappedRoute)).route_ids trips =
      (routeTrips (routeFilter ps ls routes).route_ids trips).filter
        (fun e => decide (e.1 ∈
          (routeFilter ps ls (routes.filter mappedRoute)).route_ids)) := by
    unfold routeTrips
    have h := foldl_tripStep_filter (routeFilter ps ls routes).route_ids
      (routeFilter ps ls (routes.filter mappedRoute)).route_ids hsub trips []
    simpa using h
  have hrs : routeStops
        (routeTrips
          (routeFilter ps ls (routes.filter mappedRoute)).route_ids trips)
        (tripStops stop_times) =
      (routeStops (routeTrips (routeFilter ps ls routes).route_ids trips)
        (tripStops stop_times)).filter
        (fun e => decide (e.1 ∈
          (routeFilter ps ls (routes.filter mappedRoute)).route_ids)) := by
    rw [hrt]
    exact routeStops_filter
      (fun k => decide (k ∈
        (routeFilter ps ls (routes.filter mappedRoute)).route_ids))
      (tripStops stop_times)
      (routeTrips (routeFilter ps ls routes).route_ids trips)
  have hkeys : ∀ e ∈ routeStops
      (routeTrips (routeFilter ps ls routes).route_ids trips)
      (tripStops stop_times),
      e.1 ∈ (routeFilter ps ls routes).route_ids := by
    intro e he
    obtain ⟨e', he', hee⟩ := routeStops_keys (tripStops stop_times)
      (routeTrips (routeFilter ps ls routes).route_ids trips) e he
    rw [hee]
    exact foldl_tripStep_keys (routeFilter ps ls routes).route_ids trips []
      (fun a ha => absurd ha (List.not_mem_nil a)) e' he'
  have hcongr : ∀ (m : String → String → List String)
      (e : String × Finset String),
      e ∈ (routeStops (routeTrips (routeFilter ps ls routes).route_ids trips)
        (tripStops stop_times)).filter
        (fun e => decide (e.1 ∈
          (routeFilter ps ls (routes.filter mappedRoute)).route_ids)) →
      mainStep (routes.filter mappedRoute)
          (routeFilter ps ls routes).route_product sl sb3 m e =
        mainStep routes (routeFilter ps ls routes).route_product sl sb3
          m e := by
    intro m e he
    rw [List.mem_filter] at he
    have hxF : e.1 ∈ (routeFilter ps ls
        (routes.filter mappedRoute)).route_ids :=
      of_decide_eq_true he.2
    rw [hmemF e.1] at hxF
    obtain ⟨r0, hr0, hpass0, hid0⟩ := hxF
    rw [List.mem_filter] at hr0
    have ht0 : truthy r0.route_id = true :=
      ((Bool.and_eq_true _ _) ▸ hpass0).2
    obtain ⟨hsome0, hne0⟩ := truthy_getD ht0
    have hxne : e.1 ≠ "" := hid0 ▸ hne0
    apply mainStep_congr_routes
    apply find?_filter_of_imp
    intro r hr hq
    have hqe : r.route_id = some e.1 := beq_iff_eq.mp hq
    have htr : truthy r.route_id = true := by
      rw [hqe]
      exact truthy_of_some hxne
    have hgr : r.route_id.getD "" = r0.route_id.getD "" := by
      rw [hqe, Option.getD_some, hid0]
    rw [truthy_ids_unique routes hnd r hr r0 hr0.1 htr ht0 hgr]
    exact hr0.2
  have hskip : ∀ (m : String → String → List String)
      (e : String × Finset String),
      e ∈ routeStops (routeTrips (routeFilter ps ls routes).route_ids trips)
        (tripStops stop_times) →
      decide (e.1 ∈ (routeFilter ps ls
        (routes.filter mappedRoute)).route_ids) = false →
      mainStep routes (routeFilter ps ls routes).route_product sl sb3 m e =
        m := by
    intro m e he hf
    have hxR : e.1 ∈ (routeFilter ps ls routes).route_ids := hkeys e he
    have hxF : e.1 ∉ (routeFilter ps ls
        (routes.filter mappedRoute)).route_ids := by
      intro hx
      rw [decide_eq_true hx] at hf
      exact Bool.noConfusion hf
    rw [hmemR e.1] at hxR
    obtain ⟨r0, hr0, hpass0, hid0⟩ := hxR
    have ht0 : truthy r0.route_id = true :=
      ((Bool.and_eq_true _ _) ▸ hpass0).2
    obtain ⟨hsome0, hne0⟩ := truthy_getD ht0
    have hxne : e.1 ≠ "" := hid0 ▸ hne0
    have hall : ∀ r ∈ routes, r.route_id.getD "" = e.1 →
        mappedRoute r = false := by
      intro r hr hgr
      cases hmr : mappedRoute r
      · rfl
      · exfalso
        have htr : truthy r.route_id = true := by
          cases hri : r.route_id with
          | none =>
            rw [hri, Option.getD_none] at hgr
            exact absurd hgr.symm hxne
          | some s =>
            apply truthy_of_some
            rw [hri, Option.getD_some] at hgr
            rw [hgr]
            exact hxne
        have hgr0 : r.route_id.getD "" = r0.route_id.getD "" := by
          rw [hgr, hid0]
        have heq := truthy_ids_unique routes hnd r hr r0 hr0 htr ht0 hgr0
        apply hxF
        rw [hmemF e.1]
        refine ⟨r0, List.mem_filter.mpr ⟨hr0, ?_⟩, hpass0, hid0⟩
        rw [← heq]
        exact hmr
    have hrpnone : (routeFilter ps ls routes).route_product e.1 = none := by
      unfold routeFilter
      rw [foldl_routeFilter_product]
      exact foldl_product_none ps ls routes _ e.1 rfl hall
    exact mainStep_of_product_none routes _ sl sb3 m e hrpnone
  rw [hrs, hrp]
  rw [foldl_congr_step
    (mainStep (routes.filter mappedRoute)
      (routeFilter ps ls routes).route_product sl sb3)
    (mainStep routes (routeFilter ps ls routes).route_product sl sb3)
    _ hcongr _]
  exact foldl_filter_of_skip
    (mainStep routes (routeFilter ps ls routes).route_product sl sb3)
    (fun e => decide (e.1 ∈
      (routeFilter ps ls (routes.filter mappedRoute)).route_ids))
    _ hskip _

/-- C4: unmapped route types are excluded. For every static feed whose
truthy route ids are duplicate-free (one routes row per route) and every
filter setting of `build_label_index` — including no product filter and no
label filter — deleting the routes whose route_type has no entry in
`ROUTE_TYPE_TO_PRODUCT` leaves the built index mapping unchanged: such
routes contribute no station IDs to any mapping[product][label] entry nor
to mapping["ALL"][label]. -/
theorem c4_unmapped_excluded (tables : GtfsTables)
    (products labels : Option (List String)) (stations : List Station)
    (source : String) (hnd : (truthyRouteIds tables.routes).Nodup) :
    (build_label_index tables products labels stations source).mapping =
      (build_label_index
        { tables with routes := tables.routes.filter mappedRoute }
        products labels stations source).mapping :=
  (pipeline_filter_mapped (normFilterSet products strUpper)
    (normFilterSet labels (fun s => strUpper (strTrim s))) tables.routes
    tables.trips tables.stop_times (stopLookup tables.stops)
    (stationBase3Map stations) hnd).symm

/-- A two-route demo feed: route R1 is a tram (route_type "0"), route R2
carries the unmapped route type "715"; both are labelled "19". -/
def demoTables : GtfsTables :=
  { routes := [⟨some "R1", some "0", some "19"⟩,
      ⟨some "R2", some "715", some "19"⟩]
    trips := [⟨some "R1", some "t1"⟩, ⟨some "R2", some "t2"⟩]
    stop_times := [⟨some "t1", some "de:09162:1:1:A"⟩,
      ⟨some "t2", some "de:09162:2:1:B"⟩]
    stops := [⟨some "de:09162:1:1:A", none⟩,
      ⟨some "de:09162:2:1:B", none⟩] }

/-- A station cache matching the demo feed's stop clusters. -/
def demoCache : List Station :=
  [⟨"de:09162:1", "Alpha", some ["TRAM"]⟩,
    ⟨"de:09162:2", "Beta", some ["TRAM"]⟩]

/-- Witness for C4: the demo feed's truthy route ids are duplicate-free,
and deleting its unmapped route leaves the built mapping unchanged (with no
product filter and no label filter). -/
theorem c4_witness :
    (truthyRouteIds demoTables.routes).Nodup ∧
    (build_label_index demoTables none none demoCache "feed").mapping =
      (build_label_index
        { demoTables with routes := demoTables.routes.filter mappedRoute }
        none none demoCache "feed").mapping :=
  ⟨by decide,
    c4_unmapped_excluded demoTables none none demoCache "feed" (by decide)⟩

end TrackTram
